import Mathlib

/-!
Verification of the transcript-normalization core of a YouTube video
summarizer.  The JavaScript sources (an express server `server.js`, two
serverless variants) are shallowly embedded below: JS numbers are modelled
as `ℚ` (with explicit floor/truncation where the code calls `Math.floor`
or the `%` operator), JS strings as `String`/`List Char`, JSON values as
an inductive `Json` type, and fallible code as `Except String`.
-/

set_option maxRecDepth 4000

/-- Model of the JavaScript `padStart` call of `formatTimestamp` with
target length 2 and pad character 0: prepend the character 0 until the
length is at least 2. -/
def padStart2 (s : String) : String :=
  String.mk (List.replicate (2 - s.length) '0') ++ s

/-- Model of JavaScript number truncation: the remainder operator `%`
rounds the quotient toward zero. -/
def jsTrunc (q : ℚ) : ℤ :=
  if 0 ≤ q then ⌊q⌋ else ⌈q⌉

/-- Model of the JavaScript remainder operator `a % b`:
`a - b * trunc(a / b)`, which for non-negative operands agrees with the
mathematical remainder. -/
def jsMod (a b : ℚ) : ℚ :=
  a - b * (jsTrunc (a / b) : ℚ)

/-- Embedding of `formatTimestamp(seconds)` from `server.js` lines 26 to 35
(identical copies exist in every variant).  Hours, minutes and seconds are
obtained with `Math.floor` and the `%` operator; the output is `H:MM:SS`
when the hour count is positive and `M:SS` otherwise. -/
def formatTimestamp (seconds : ℚ) : String :=
  let hrs : ℤ := ⌊seconds / 3600⌋
  let mins : ℤ := ⌊(jsMod seconds 3600) / 60⌋
  let secs : ℤ := ⌊jsMod seconds 60⌋
  if 0 < hrs then
    toString hrs ++ ":" ++ padStart2 (toString mins) ++ ":" ++ padStart2 (toString secs)
  else
    toString mins ++ ":" ++ padStart2 (toString secs)

/-- Model of JSON values, the results of the JavaScript `JSON.parse`.
Numbers are rationals (JS numbers on the inputs of interest are exact). -/
inductive Json where
  | null : Json
  | bool : Bool → Json
  | num : ℚ → Json
  | str : String → Json
  | arr : List Json → Json
  | obj : List (String × Json) → Json

/-- Lookup of a key in an association list, mirroring JS property access on
a plain object (first binding wins; `JSON.parse` keeps the last duplicate
key, but duplicate keys never arise in this development). -/
def listLookup (kvs : List (String × Json)) (k : String) : Option Json :=
  match kvs with
  | [] => none
  | (k2, v) :: rest => if k2 = k then some v else listLookup rest k

/-- Model of the JavaScript property access `j.k` on a parsed JSON value:
reading a property of `null` throws a TypeError; reading a missing property
or a property of a primitive yields `undefined` (modelled as `none`). -/
def jsGetField (j : Json) (k : String) : Except String (Option Json) :=
  match j with
  | Json.null => Except.error ("TypeError: Cannot read properties of null (reading " ++ k ++ ")")
  | Json.obj kvs => Except.ok (listLookup kvs k)
  | _ => Except.ok none

/-- Model of the JavaScript property assignment `j.k = v` on an object:
update the existing binding in place, or append a new one. -/
def jsSetField (j : Json) (k : String) (v : Json) : Json :=
  match j with
  | Json.obj kvs =>
      if (listLookup kvs k).isSome then
        Json.obj (kvs.map (fun kv => if kv.1 = k then (k, v) else kv))
      else
        Json.obj (kvs ++ [(k, v)])
  | _ => j

/-- Model of JavaScript truthiness of a possibly-`undefined` JSON value. -/
def jsTruthy (v : Option Json) : Bool :=
  match v with
  | none => false
  | some Json.null => false
  | some (Json.bool b) => b
  | some (Json.num q) => q != 0
  | some (Json.str s) => s != ""
  | some (Json.arr _) => true
  | some (Json.obj _) => true

/-- Model of JavaScript numeric coercion of a possibly-`undefined` JSON
value as used in arithmetic positions (`null` coerces to 0, booleans to
0 or 1; string coercion and NaN propagation are not reached by any
theorem below and are modelled as 0). -/
def jsToNumber (v : Option Json) : ℚ :=
  match v with
  | some (Json.num q) => q
  | some (Json.bool true) => 1
  | _ => 0

/-- Model of the JavaScript expression `v || 0` applied to a possibly
undefined field and then used as a number (as in `event.dDurationMs || 0`). -/
def jsNumOr0 (v : Option Json) : ℚ :=
  if jsTruthy v then jsToNumber v else 0

/-- Normalized caption segment, the common record `(text, offset, duration)`
produced by every caption parser (offset and duration in milliseconds). -/
structure Segment where
  text : String
  offset : ℚ
  duration : ℚ
deriving Repr, DecidableEq

/-- Whitespace accepted by the JSON grammar (space, tab, newline, return). -/
def isJsonWs (c : Char) : Bool :=
  c = ' ' || c = '\t' || c = '\n' || c = '\r'

/-- Drop leading JSON whitespace. -/
def skipWs (cs : List Char) : List Char :=
  cs.dropWhile isJsonWs

/-- Value of a hexadecimal digit, for `\u` escapes. -/
def hexVal (c : Char) : Option Nat :=
  if '0' ≤ c && c ≤ '9' then some (c.toNat - 48)
  else if 'a' ≤ c && c ≤ 'f' then some (c.toNat - 87)
  else if 'A' ≤ c && c ≤ 'F' then some (c.toNat - 55)
  else none

/-- Body of a JSON string literal after the opening quote, accumulating
decoded characters in reverse.  Handles the standard escapes; raw control
characters are accepted (a minor liberalization over `JSON.parse`, not
reached by any theorem below). -/
def parseStringAux (acc : List Char) : List Char → Option (List Char × List Char)
  | [] => none
  | '"' :: rest => some (acc.reverse, rest)
  | '\\' :: 'u' :: h1 :: h2 :: h3 :: h4 :: rest =>
    match hexVal h1, hexVal h2, hexVal h3, hexVal h4 with
    | some a, some b, some c, some d =>
        parseStringAux (Char.ofNat (4096 * a + 256 * b + 16 * c + d) :: acc) rest
    | _, _, _, _ => none
  | '\\' :: e :: rest =>
    if e = '"' then parseStringAux ('"' :: acc) rest
    else if e = '\\' then parseStringAux ('\\' :: acc) rest
    else if e = '/' then parseStringAux ('/' :: acc) rest
    else if e = 'n' then parseStringAux ('\n' :: acc) rest
    else if e = 't' then parseStringAux ('\t' :: acc) rest
    else if e = 'r' then parseStringAux ('\r' :: acc) rest
    else if e = 'b' then parseStringAux ('\x08' :: acc) rest
    else if e = 'f' then parseStringAux ('\x0c' :: acc) rest
    else none
  | c :: rest => parseStringAux (c :: acc) rest

/-- Split off a maximal run of decimal digits. -/
def splitDigits (cs : List Char) : List Char × List Char :=
  (cs.takeWhile Char.isDigit, cs.dropWhile Char.isDigit)

/-- Numeric value of a digit run. -/
def digitsVal (ds : List Char) : ℕ :=
  ds.foldl (fun a c => 10 * a + (c.toNat - 48)) 0

/-- Exponent part of a JSON number after the `e`. -/
def parseExpAfter (cs : List Char) : Option (ℤ × List Char) :=
  let (sgn, cs1) : ℤ × List Char :=
    match cs with
    | '+' :: r => (1, r)
    | '-' :: r => (-1, r)
    | _ => (1, cs)
  let (ds, cs2) := splitDigits cs1
  if ds.isEmpty then none else some (sgn * (digitsVal ds : ℤ), cs2)

/-- Optional exponent part of a JSON number. -/
def parseExp (cs : List Char) : Option (ℤ × List Char) :=
  match cs with
  | 'e' :: rest => parseExpAfter rest
  | 'E' :: rest => parseExpAfter rest
  | _ => some (0, cs)

/-- Optional fractional part of a JSON number. -/
def parseFrac (cs : List Char) : Option (ℚ × List Char) :=
  match cs with
  | '.' :: rest =>
    let (ds, cs2) := splitDigits rest
    if ds.isEmpty then none
    else some ((digitsVal ds : ℚ) / (10 : ℚ) ^ ds.length, cs2)
  | _ => some (0, cs)

/-- JSON number literal (optional minus, integer part without leading
zeros, optional fraction and exponent), as accepted by `JSON.parse`. -/
def parseNumber (cs : List Char) : Option (ℚ × List Char) :=
  let (neg, cs1) : Bool × List Char :=
    match cs with
    | '-' :: r => (true, r)
    | _ => (false, cs)
  let (ds, cs2) := splitDigits cs1
  if ds.isEmpty then none
  else if ds.head? = some '0' && ds != ['0'] then none
  else
    match parseFrac cs2 with
    | none => none
    | some (f, cs3) =>
      match parseExp cs3 with
      | none => none
      | some (e, cs4) =>
        let mag : ℚ := ((digitsVal ds : ℚ) + f) * (10 : ℚ) ^ (e : ℤ)
        some (if neg then -mag else mag, cs4)

mutual

/-- Recursive-descent JSON value parser (fuel-indexed for termination),
modelling the grammar accepted by the JavaScript `JSON.parse`. -/
def parseVal : Nat → List Char → Option (Json × List Char)
  | 0, _ => none
  | Nat.succ fuel, cs =>
    match skipWs cs with
    | 'n' :: 'u' :: 'l' :: 'l' :: rest => some (Json.null, rest)
    | 't' :: 'r' :: 'u' :: 'e' :: rest => some (Json.bool true, rest)
    | 'f' :: 'a' :: 'l' :: 's' :: 'e' :: rest => some (Json.bool false, rest)
    | '"' :: rest =>
      match parseStringAux [] rest with
      | some (s, rest2) => some (Json.str (String.mk s), rest2)
      | none => none
    | '[' :: rest =>
      match skipWs rest with
      | ']' :: rest2 => some (Json.arr [], rest2)
      | _ =>
        match parseItems fuel rest with
        | some (xs, rest2) => some (Json.arr xs, rest2)
        | none => none
    | '{' :: rest =>
      match skipWs rest with
      | '}' :: rest2 => some (Json.obj [], rest2)
      | _ =>
        match parseMembers fuel rest with
        | some (kvs, rest2) => some (Json.obj kvs, rest2)
        | none => none
    | cs2 =>
      match parseNumber cs2 with
      | some (q, rest) => some (Json.num q, rest)
      | none => none

/-- Comma-separated JSON array elements up to the closing bracket. -/
def parseItems : Nat → List Char → Option (List Json × List Char)
  | 0, _ => none
  | Nat.succ fuel, cs =>
    match parseVal fuel cs with
    | none => none
    | some (v, rest) =>
      match skipWs rest with
      | ',' :: rest2 =>
        match parseItems fuel rest2 with
        | some (vs, rest3) => some (v :: vs, rest3)
        | none => none
      | ']' :: rest2 => some ([v], rest2)
      | _ => none

/-- Comma-separated JSON object members up to the closing brace. -/
def parseMembers : Nat → List Char → Option (List (String × Json) × List Char)
  | 0, _ => none
  | Nat.succ fuel, cs =>
    match skipWs cs with
    | '"' :: rest =>
      match parseStringAux [] rest with
      | none => none
      | some (k, rest2) =>
        match skipWs rest2 with
        | ':' :: rest3 =>
          match parseVal fuel rest3 with
          | none => none
          | some (v, rest4) =>
            match skipWs rest4 with
            | ',' :: rest5 =>
              match parseMembers fuel rest5 with
              | some (kvs, rest6) => some ((String.mk k, v) :: kvs, rest6)
              | none => none
            | '}' :: rest5 => some ([(String.mk k, v)], rest5)
            | _ => none
        | _ => none
    | _ => none

end

/-- Model of the JavaScript `JSON.parse`: parse one value and require only
whitespace afterwards; `none` models a thrown `SyntaxError`.  The fuel
`2 * length + 2` dominates the recursion depth, as every two nested calls
consume at least one character. -/
def Json.parse (s : String) : Option Json :=
  match parseVal (2 * s.length + 2) s.data with
  | some (j, rest) => if (skipWs rest).isEmpty then some j else none
  | none => none

/-- Embedding of the regular-expression search `responseText.match` with
greedy pattern open-brace, any characters, close-brace (from
`analyzeWithClaude`): the leftmost greedy match runs from the first
open brace to the last close brace, provided some close brace follows the
first open brace; otherwise there is no match. -/
def extractJson (cs : List Char) : Option (List Char) :=
  let fromBrace := cs.dropWhile (fun c => c ≠ '{')
  let upToClose := (fromBrace.reverse.dropWhile (fun c => c ≠ '}')).reverse
  if upToClose.isEmpty then none else some upToClose

/-- Model of the JavaScript `split` on a newline character: the list of
lines, where an empty input gives one empty line and a trailing newline
gives a trailing empty line. -/
def splitLines : List Char → List (List Char)
  | [] => [[]]
  | c :: rest =>
    if c = '\n' then [] :: splitLines rest
    else
      match splitLines rest with
      | [] => [[c]]
      | l :: ls => (c :: l) :: ls

/-- Model of the JavaScript `trim`: strip whitespace from both ends. -/
def trimChars (cs : List Char) : List Char :=
  ((cs.dropWhile Char.isWhitespace).reverse.dropWhile Char.isWhitespace).reverse

/-- Attempt to match the VTT timestamp pattern of `parseVTT` — two digits,
colon, two digits, colon, two digits, dot, three digits, optional
whitespace, then the arrow — at the head of the character list, returning
the parsed hours, minutes and seconds (milliseconds are matched but
discarded, as in the source). -/
def matchTimeAt (cs : List Char) : Option (Nat × Nat × Nat) :=
  match cs with
  | h1 :: h2 :: ':' :: m1 :: m2 :: ':' :: s1 :: s2 :: '.' :: d1 :: d2 :: d3 :: rest =>
    if h1.isDigit && h2.isDigit && m1.isDigit && m2.isDigit && s1.isDigit && s2.isDigit
        && d1.isDigit && d2.isDigit && d3.isDigit then
      match rest.dropWhile Char.isWhitespace with
      | '-' :: '-' :: '>' :: _ =>
        some (10 * (h1.toNat - 48) + (h2.toNat - 48),
              10 * (m1.toNat - 48) + (m2.toNat - 48),
              10 * (s1.toNat - 48) + (s2.toNat - 48))
      | _ => none
    else none
  | _ => none

/-- Leftmost occurrence of the VTT timestamp pattern anywhere in a line
(the regular expression in the source is unanchored). -/
def searchTime : List Char → Option (Nat × Nat × Nat)
  | [] => none
  | c :: rest =>
    match matchTimeAt (c :: rest) with
    | some r => some r
    | none => searchTime rest

/-- Test for the anchored pattern two digits, colon, two digits at the
start of a line, used by `parseVTT` to skip timestamp-like text lines. -/
def leadingTimeMatch (cs : List Char) : Bool :=
  match cs with
  | a :: b :: ':' :: c :: d :: _ => a.isDigit && b.isDigit && c.isDigit && d.isDigit
  | _ => false

/-- Model of the global replacement of the regular expression
open-angle, one-or-more non-close-angle characters, close-angle by the
empty string (tag stripping in `parseVTT`): leftmost non-overlapping
matches are removed. -/
def removeTags : List Char → List Char
  | [] => []
  | '<' :: rest =>
    let inside := rest.takeWhile (fun c => c ≠ '>')
    if inside.length < rest.length then
      if inside.isEmpty then '<' :: removeTags rest
      else removeTags (rest.drop (inside.length + 1))
    else '<' :: removeTags rest
  | c :: rest => c :: removeTags rest
termination_by cs => cs.length
decreasing_by
  all_goals simp only [List.length_drop, List.length_cons]
  all_goals omega

set_option linter.unusedVariables false in
/-- Model of the JavaScript global string replacement of a fixed pattern:
leftmost non-overlapping occurrences are replaced and the replacement text
is not rescanned.  The hypothesis name in the branch is used by the
termination proof. -/
def replaceAll (pat repl : List Char) : List Char → List Char
  | [] => []
  | c :: rest =>
    if h : ¬pat.isEmpty ∧ pat.isPrefixOf (c :: rest) then
      repl ++ replaceAll pat repl ((c :: rest).drop pat.length)
    else c :: replaceAll pat repl rest
termination_by cs => cs.length
decreasing_by
  all_goals simp only [List.length_drop, List.length_cons]
  · have hp : pat ≠ [] := by simpa [List.isEmpty_iff] using h.1
    have hl := List.length_pos.mpr hp
    omega
  · omega

/-- Sequential entity decoding from `parseVTT`: amp, lt, gt, nbsp, in the
order the source chains the replacements. -/
def decodeEntities (cs : List Char) : List Char :=
  replaceAll "&nbsp;".data " ".data
    (replaceAll "&gt;".data ">".data
      (replaceAll "&lt;".data "<".data
        (replaceAll "&amp;".data "&".data cs)))

/-- Cleaning of one VTT text line: strip markup tags, decode the four
entities, trim. -/
def cleanText (cs : List Char) : List Char :=
  trimChars (decodeEntities (removeTags cs))

/-- Accumulation of the cue text of `parseVTT`: every trimmed line that is
not timestamp-like and not the word WEBVTT contributes its cleaned text,
space-separated. -/
def buildText (ls : List (List Char)) : List Char :=
  ls.foldl
    (fun acc l =>
      let tl := trimChars l
      if leadingTimeMatch tl then acc
      else if tl = "WEBVTT".data then acc
      else
        let c := cleanText tl
        if c.isEmpty then acc
        else if acc.isEmpty then c
        else acc ++ ' ' :: c)
    []

/-- Main loop of `parseVTT`: at every line whose trimmed form contains the
timestamp pattern, collect the following non-blank lines as cue text and
emit a segment when that text is non-empty; the loop then continues with
the next line (the source never skips past a cue block). -/
def vttLoop : List (List Char) → List Segment
  | [] => []
  | line :: rest =>
    match searchTime (trimChars line) with
    | some (h, m, s) =>
      let t : ℕ := h * 3600 + m * 60 + s
      let textLines := rest.takeWhile (fun l => ¬(trimChars l).isEmpty)
      let text := buildText textLines
      (if text.isEmpty then [] else [⟨String.mk text, ((t * 1000 : ℕ) : ℚ), 0⟩])
        ++ vttLoop rest
    | none => vttLoop rest

/-- Embedding of `parseVTT(vttContent)` from `server.js` lines 37 to 83. -/
def parseVTT (vttContent : String) : List Segment :=
  vttLoop (splitLines vttContent.data)

/-- Text pieces contributed by the `segs` array of one caption event:
`seg.utf8 || the empty string` for each entry; reading a property of a
`null` entry throws.  Truthy non-string payloads would be string-coerced
by JS; that coercion is not reached by any theorem and yields the empty
string here. -/
def segTexts : List Json → Except String (List (List Char))
  | [] => Except.ok []
  | sg :: rest =>
    match jsGetField sg "utf8" with
    | Except.error e => Except.error e
    | Except.ok v =>
      let piece : List Char :=
        match v with
        | some (Json.str u) => u.data
        | _ => []
      match segTexts rest with
      | Except.error e => Except.error e
      | Except.ok r => Except.ok (piece :: r)

/-- Loop body of `parseJSON3` over the `events` array: an event with a
truthy `segs` and a defined `tStartMs` contributes a segment when its
joined, trimmed text is non-empty (and not a bare newline); inner newlines
are replaced by spaces; `dDurationMs || 0` supplies the duration. -/
def json3Events : List Json → Except String (List Segment)
  | [] => Except.ok []
  | ev :: rest =>
    match jsGetField ev "segs" with
    | Except.error e => Except.error e
    | Except.ok segsV =>
      match jsGetField ev "tStartMs" with
      | Except.error e => Except.error e
      | Except.ok tsV =>
        if jsTruthy segsV && tsV.isSome then
          match segsV with
          | some (Json.arr segs) =>
            match segTexts segs with
            | Except.error e => Except.error e
            | Except.ok pieces =>
              let text := trimChars (pieces.foldl (· ++ ·) [])
              if ¬text.isEmpty ∧ text ≠ ['\n'] then
                match jsGetField ev "dDurationMs" with
                | Except.error e => Except.error e
                | Except.ok durV =>
                  match json3Events rest with
                  | Except.error e => Except.error e
                  | Except.ok tail =>
                    Except.ok (⟨String.mk (replaceAll ['\n'] [' '] text),
                                jsToNumber tsV, jsNumOr0 durV⟩ :: tail)
              else json3Events rest
          | _ => Except.error "TypeError: event.segs.map is not a function"
        else json3Events rest

/-- Error message modelling the SyntaxError thrown by `JSON.parse` on
malformed input. -/
def jsonParseErrMsg : String := "SyntaxError: Unexpected token in JSON"

/-- Embedding of `parseJSON3(jsonContent)` from `server.js` lines 85 to
107.  The first line calls `JSON.parse` on the raw content, so malformed
input makes the parser throw (modelled as `Except.error`) instead of
returning an empty list.  A for-of loop over a truthy non-array `events`
throws, except that a string iterates its characters. -/
def parseJSON3 (jsonContent : String) : Except String (List Segment) :=
  match Json.parse jsonContent with
  | none => Except.error jsonParseErrMsg
  | some subData =>
    match jsGetField subData "events" with
    | Except.error e => Except.error e
    | Except.ok ev =>
      if jsTruthy ev then
        match ev with
        | some (Json.arr xs) => json3Events xs
        | some (Json.str st) => json3Events (st.data.map (fun c => Json.str (String.mk [c])))
        | _ => Except.error "TypeError: subData.events is not iterable"
      else json3Events []

/-- Tail of the deduplication loop of `getTranscript`: the accumulator
holds the pushed segments in reverse, so its head is the most recently
pushed segment. -/
def dedupAux (acc : List Segment) : List Segment → List Segment
  | [] => acc.reverse
  | item :: rest =>
    match acc with
    | [] => dedupAux [item] rest
    | prev :: _ =>
      if prev.text ≠ item.text then dedupAux (item :: acc) rest
      else dedupAux acc rest

/-- Embedding of the deduplication pass of `getTranscript` (`server.js`
lines 166 to 173): push each segment unless the previously pushed segment
has the same text. -/
def dedup (transcript : List Segment) : List Segment :=
  dedupAux [] transcript

/-- Embedding of `prepareTranscriptForAnalysis(transcript)` from
`server.js` lines 182 to 195: accumulate one bracketed, timestamped line
per segment, and compute the total duration from the last segment (0 for
an empty transcript). -/
def prepareTranscriptForAnalysis (transcript : List Segment) : String × ℤ :=
  let fullText :=
    transcript.foldl
      (fun acc item =>
        acc ++ "[" ++ formatTimestamp ((⌊item.offset / 1000⌋ : ℤ) : ℚ) ++ "] "
          ++ item.text ++ "\n")
      ""
  let totalDuration : ℤ :=
    if 0 < transcript.length then
      match transcript[transcript.length - 1]? with
      | some last => ⌊(last.offset + last.duration) / 1000⌋
      | none => 0
    else 0
  (fullText, totalDuration)

/-- Arrow token of the VTT timestamp line, assembled from characters. -/
def vttArrow : String := String.mk ['-', '-', '>']

/-- Sample single-cue VTT document used by concrete witnesses. -/
def sampleVtt : String := "00:00:01.000 " ++ vttArrow ++ " 00:00:02.000\nHi"

/-- Outcome of one yt-dlp subtitle invocation, supplied by the
environment: whether `execSync` returned without throwing, the content of
the subtitle file at the expected path afterwards (`none` when no file was
written), and the message of the thrown error when it threw. -/
structure Strat where
  execOk : Bool
  file : Option String
  msg : String

/-- Environment of one `getTranscript` call: the outcome of the initial
metadata invocation (its `execSync` plus `JSON.parse`), and the outcomes
of the vtt and json3 subtitle invocations. -/
structure FetchEnv where
  infoOk : Bool
  infoMsg : String
  vtt : Strat
  json3 : Strat

/-- Observable trace of one `getTranscript` call: which subtitle
strategies were invoked, whether each temporary subtitle file is still on
disk when the call returns, and the `console.error` log. -/
structure FetchTrace where
  vttInvoked : Bool
  json3Invoked : Bool
  vttFileRemains : Bool
  json3FileRemains : Bool
  log : List String

/-- Embedding of the vtt try-block of `getTranscript` (`server.js` lines
127 to 141): on success, read and parse the file when it exists and
unlink it (`parseVTT` is total, so the unlink is always reached); when
`execSync` throws, the error is logged and any file it created is never
removed.  Returns the transcript, whether the file remains, and the log. -/
def vttAttempt (st : Strat) : List Segment × Bool × List String :=
  if st.execOk then
    match st.file with
    | some c => (parseVTT c, false, [])
    | none => ([], false, [])
  else ([], st.file.isSome, ["vtt fetch error: " ++ st.msg])

/-- Embedding of the json3 try-block of `getTranscript` (`server.js`
lines 145 to 159): like the vtt block, except that `parseJSON3` can throw
(its first line is `JSON.parse`); the throw is caught by the surrounding
catch, which only logs — the `unlinkSync` that follows the parse is
skipped, so the downloaded file remains on disk. -/
def json3Attempt (st : Strat) : List Segment × Bool × List String :=
  if st.execOk then
    match st.file with
    | some c =>
      match parseJSON3 c with
      | Except.ok l => (l, false, [])
      | Except.error e => ([], true, ["json3 fetch error: " ++ e])
    | none => ([], false, [])
  else ([], st.file.isSome, ["json3 fetch error: " ++ st.msg])

/-- Embedding of `getTranscript(videoId)` from `server.js` lines 109 to
180, with the subprocess outcomes supplied by `env` (the returned title
and duration are irrelevant to every claim and omitted).  The vtt
strategy is tried first; json3 only when the vtt transcript is empty; an
empty final transcript raises, and the outer catch rethrows every failure
as the single user-facing message. -/
def runGetTranscript (env : FetchEnv) : Except String (List Segment) × FetchTrace :=
  if env.infoOk then
    let va := vttAttempt env.vtt
    if va.1.isEmpty then
      let ja := json3Attempt env.json3
      if ja.1.isEmpty then
        (Except.error "No captions available for this video",
         ⟨true, true, va.2.1, ja.2.1,
          va.2.2 ++ ja.2.2 ++ ["yt-dlp error: No captions available"]⟩)
      else (Except.ok (dedup ja.1), ⟨true, true, va.2.1, ja.2.1, va.2.2 ++ ja.2.2⟩)
    else (Except.ok (dedup va.1), ⟨true, false, va.2.1, false, va.2.2⟩)
  else
    (Except.error "No captions available for this video",
     ⟨false, false, false, false, ["yt-dlp error: " ++ env.infoMsg]⟩)

/-- Post-processing of a single topic or chapter entry by
`analyzeWithClaude`: spread the entry and attach `timestampFormatted`
derived from its `timestamp` field.  Reading a property of a `null` entry
throws; a `null` timestamp coerces to 0; an undefined or non-numeric
timestamp propagates NaN through the formatter, which renders it as the
NaN text (string coercions beyond that are not reached by any theorem). -/
def mapTopic (topic : Json) : Except String Json :=
  match jsGetField topic "timestamp" with
  | Except.error e => Except.error e
  | Except.ok tv =>
    let formatted : String :=
      match tv with
      | some (Json.num q) => formatTimestamp q
      | some Json.null => formatTimestamp 0
      | some (Json.bool b) => formatTimestamp (if b then 1 else 0)
      | _ => "NaN:NaN"
    let base : List (String × Json) :=
      match topic with
      | Json.obj kvs => kvs
      | _ => []
    Except.ok (jsSetField (Json.obj base) "timestampFormatted" (Json.str formatted))

/-- Map `mapTopic` across an array, propagating the first thrown error. -/
def mapTopics : List Json → Except String (List Json)
  | [] => Except.ok []
  | t :: rest =>
    match mapTopic t with
    | Except.error e => Except.error e
    | Except.ok t2 =>
      match mapTopics rest with
      | Except.error e => Except.error e
      | Except.ok r => Except.ok (t2 :: r)

/-- Error message modelling the TypeError thrown by calling `map` on an
undefined property. -/
def undefinedMapErrMsg : String :=
  "TypeError: Cannot read properties of undefined (reading map)"

/-- Embedding of `parsed.topics = parsed.topics.map(...)` from
`analyzeWithClaude` in `server.js` lines 246 to 249 (identical in the
summary/topics serverless variant): the access is unguarded, so a parsed
reply without a `topics` array throws a TypeError. -/
def postProcessTopics (parsed : Json) : Except String Json :=
  match jsGetField parsed "topics" with
  | Except.error e => Except.error e
  | Except.ok v =>
    match v with
    | some (Json.arr ts) =>
      match mapTopics ts with
      | Except.error e => Except.error e
      | Except.ok ts2 => Except.ok (jsSetField parsed "topics" (Json.arr ts2))
    | some _ => Except.error "TypeError: parsed.topics.map is not a function"
    | none => Except.error undefinedMapErrMsg

/-- Embedding of the guarded `if (parsed.chapters) ... map` from the
extended-schema variant (`api/analyze.js` lines 403 to 408): a missing or
falsy `chapters` field is skipped and `parsed` is returned unchanged — the
field is not defaulted to an empty container. -/
def postProcessChapters (parsed : Json) : Except String Json :=
  match jsGetField parsed "chapters" with
  | Except.error e => Except.error e
  | Except.ok v =>
    match v with
    | some (Json.arr cs) =>
      match mapTopics cs with
      | Except.error e => Except.error e
      | Except.ok cs2 => Except.ok (jsSetField parsed "chapters" (Json.arr cs2))
    | some x =>
      if jsTruthy (some x) then
        Except.error "TypeError: parsed.chapters.map is not a function"
      else Except.ok parsed
    | none => Except.ok parsed

/-- Embedding of the reply-handling tail of `analyzeWithClaude`
(`server.js` lines 239 to 251; the identical code appears in the unnamed
serverless variant).  The single LLM call per request is abstracted as the
reply text argument: the function consumes exactly one reply and nothing
is retried.  The greedy brace regex is applied, a failed match throws the
fixed parse error, `JSON.parse` runs on the matched span, and the topics
array is post-processed. -/
def analyzeWithClaude (responseText : String) : Except String Json :=
  match extractJson responseText.data with
  | none => Except.error "Failed to parse AI response"
  | some span =>
    match Json.parse (String.mk span) with
    | none => Except.error jsonParseErrMsg
    | some parsed => postProcessTopics parsed

theorem floorDivNat (q : ℚ) (hq : 0 ≤ q) (n : ℕ) : ⌊q / (n : ℚ)⌋ = ⌊q⌋ / (n : ℤ) := by
  have hdiv : 0 ≤ q / (n : ℚ) := div_nonneg hq (Nat.cast_nonneg n)
  rw [← Int.natCast_floor_eq_floor hdiv, ← Int.natCast_floor_eq_floor hq, Nat.floor_div_nat]
  push_cast
  rfl

theorem jsMod_nonneg_eq (q : ℚ) (hq : 0 ≤ q) (n : ℕ) :
    jsMod q (n : ℚ) = q - (n : ℚ) * ((⌊q⌋ / (n : ℤ) : ℤ) : ℚ) := by
  unfold jsMod jsTrunc
  rw [if_pos (div_nonneg hq (Nat.cast_nonneg n)), floorDivNat q hq n]

theorem jsMod_nonneg (q : ℚ) (hq : 0 ≤ q) (n : ℕ) : 0 ≤ jsMod q (n : ℚ) := by
  rw [jsMod_nonneg_eq q hq n]
  have hm : 0 ≤ ⌊q⌋ := Int.floor_nonneg.mpr hq
  have hmod : (n : ℤ) * (⌊q⌋ / (n : ℤ)) ≤ ⌊q⌋ := by
    rcases Nat.eq_zero_or_pos n with h0 | hpos
    · subst h0
      simpa using hm
    · have hne : ((n : ℕ) : ℤ) ≠ 0 := by exact_mod_cast hpos.ne'
      have h := Int.emod_nonneg ⌊q⌋ hne
      rw [Int.emod_def] at h
      linarith
  have hcast : (((n : ℤ) * (⌊q⌋ / (n : ℤ)) : ℤ) : ℚ) ≤ (⌊q⌋ : ℚ) := by exact_mod_cast hmod
  have hfl := Int.floor_le q
  push_cast at hcast
  linarith

theorem floor_jsMod (q : ℚ) (hq : 0 ≤ q) (n : ℕ) : ⌊jsMod q (n : ℚ)⌋ = ⌊q⌋ % (n : ℤ) := by
  rw [jsMod_nonneg_eq q hq n]
  have hcast : (n : ℚ) * ((⌊q⌋ / (n : ℤ) : ℤ) : ℚ) = (((n : ℤ) * (⌊q⌋ / (n : ℤ)) : ℤ) : ℚ) := by
    push_cast
    ring
  rw [hcast, Int.floor_sub_int, Int.emod_def]

theorem floor_jsMod_div (q : ℚ) (hq : 0 ≤ q) (n m : ℕ) :
    ⌊jsMod q (n : ℚ) / (m : ℚ)⌋ = ⌊q⌋ % (n : ℤ) / (m : ℤ) := by
  rw [floorDivNat (jsMod q (n : ℚ)) (jsMod_nonneg q hq n) m, floor_jsMod q hq n]

theorem toString_intCast_nat (k : ℕ) : toString ((k : ℕ) : ℤ) = toString k := rfl

/-- Claim C4: for every non-negative number of seconds the timestamp
formatter is total and returns H:MM:SS when the whole-hour count is
positive and M:SS otherwise, minutes and seconds zero-padded to two
digits, the leading field unpadded, fractional seconds truncated; and the
five sample values from the specification hold. -/
theorem formatTimestamp_spec :
    (∀ q : ℚ, 0 ≤ q →
      formatTimestamp q =
        if 0 < ⌊q⌋.toNat / 3600 then
          toString (⌊q⌋.toNat / 3600) ++ ":" ++ padStart2 (toString (⌊q⌋.toNat % 3600 / 60))
            ++ ":" ++ padStart2 (toString (⌊q⌋.toNat % 60))
        else
          toString (⌊q⌋.toNat % 3600 / 60) ++ ":" ++ padStart2 (toString (⌊q⌋.toNat % 60)))
    ∧ formatTimestamp 0 = "0:00" ∧ formatTimestamp 59 = "0:59" ∧ formatTimestamp 60 = "1:00"
    ∧ formatTimestamp 3600 = "1:00:00" ∧ formatTimestamp 3661 = "1:01:01" := by
  refine ⟨?_, ?_, ?_, ?_, ?_, ?_⟩
  · intro q hq
    have hm : 0 ≤ ⌊q⌋ := Int.floor_nonneg.mpr hq
    have hmn : ⌊q⌋ = ((⌊q⌋.toNat : ℕ) : ℤ) := (Int.toNat_of_nonneg hm).symm
    have h3600 : ((3600 : ℕ) : ℚ) = (3600 : ℚ) := by norm_num
    have h60 : ((60 : ℕ) : ℚ) = (60 : ℚ) := by norm_num
    have hhrs : ⌊q / 3600⌋ = ((⌊q⌋.toNat / 3600 : ℕ) : ℤ) := by
      rw [← h3600, floorDivNat q hq 3600, hmn]
      push_cast
      rfl
    have hmins : ⌊jsMod q 3600 / 60⌋ = ((⌊q⌋.toNat % 3600 / 60 : ℕ) : ℤ) := by
      rw [← h3600, ← h60, floor_jsMod_div q hq 3600 60, hmn]
      push_cast
      rfl
    have hsecs : ⌊jsMod q 60⌋ = ((⌊q⌋.toNat % 60 : ℕ) : ℤ) := by
      rw [← h60, floor_jsMod q hq 60, hmn]
      push_cast
      rfl
    unfold formatTimestamp
    simp only [hhrs, hmins, hsecs, Int.natCast_pos, toString_intCast_nat]
  · with_unfolding_all decide
  · with_unfolding_all decide
  · with_unfolding_all decide
  · with_unfolding_all decide
  · with_unfolding_all decide

/-- Witness for claim C4 at the fractional input 7325.5 seconds, which
formats as 2:02:05. -/
theorem formatTimestamp_spec_witness :
    (0 : ℚ) ≤ 7325.5 ∧ formatTimestamp (7325.5 : ℚ) = "2:02:05" := by
  refine ⟨by with_unfolding_all decide, ?_⟩
  have h := formatTimestamp_spec.1 (7325.5 : ℚ) (by with_unfolding_all decide)
  rw [h]
  with_unfolding_all decide

theorem strJoinFoldl : ∀ (l : List String) (acc : String),
    l.foldl (fun a s => a ++ s) acc = acc ++ String.join l := by
  intro l
  induction l with
  | nil =>
    intro acc
    simp [String.join]
  | cons x xs ih =>
    intro acc
    have hx : String.join (x :: xs) = x ++ String.join xs := by
      show xs.foldl (fun a s => a ++ s) ("" ++ x) = x ++ String.join xs
      rw [ih ("" ++ x), String.empty_append]
    show xs.foldl (fun a s => a ++ s) (acc ++ x) = acc ++ String.join (x :: xs)
    rw [ih (acc ++ x), hx, String.append_assoc]

theorem strJoinCons (x : String) (xs : List String) :
    String.join (x :: xs) = x ++ String.join xs := by
  show xs.foldl (fun a s => a ++ s) ("" ++ x) = x ++ String.join xs
  rw [strJoinFoldl, String.empty_append]

theorem prepFoldAux :
    ∀ (l : List Segment) (acc : String),
      l.foldl
        (fun acc item =>
          acc ++ "[" ++ formatTimestamp ((⌊item.offset / 1000⌋ : ℤ) : ℚ) ++ "] "
            ++ item.text ++ "\n") acc
        = acc ++ String.join (l.map (fun item =>
            "[" ++ formatTimestamp ((⌊item.offset / 1000⌋ : ℤ) : ℚ) ++ "] "
              ++ item.text ++ "\n")) := by
  intro l
  induction l with
  | nil =>
    intro acc
    simp [String.join]
  | cons x xs ih =>
    intro acc
    rw [List.foldl_cons, ih, List.map_cons, strJoinCons]
    simp [String.append_assoc]

theorem prepareFull_eq (l : List Segment) :
    (prepareTranscriptForAnalysis l).1 =
      String.join (l.map (fun item =>
        "[" ++ formatTimestamp ((⌊item.offset / 1000⌋ : ℤ) : ℚ) ++ "] " ++ item.text ++ "\n")) := by
  show l.foldl _ "" = _
  rw [prepFoldAux l "", String.empty_append]

theorem prepareTotal_eq (l : List Segment) :
    (prepareTranscriptForAnalysis l).2 =
      (match l.getLast? with
       | some last => ⌊(last.offset + last.duration) / 1000⌋
       | none => 0) := by
  show (if 0 < l.length then _ else _) = _
  rw [List.getLast?_eq_getElem?]
  cases l with
  | nil => rfl
  | cons a t => simp

/-- Claim C3: for every transcript the formatter returns a full text equal
to the in-order concatenation of one bracketed timestamped line per
segment, and a total duration equal to the floor of the last segment
offset plus duration in seconds (0 for an empty transcript); in particular
the one-segment Hello-world transcript yields the sample output. -/
theorem prepare_spec :
    (∀ l : List Segment,
      (prepareTranscriptForAnalysis l).1 =
        String.join (l.map (fun item =>
          "[" ++ formatTimestamp ((⌊item.offset / 1000⌋ : ℤ) : ℚ) ++ "] " ++ item.text ++ "\n"))
      ∧ (prepareTranscriptForAnalysis l).2 =
          (match l.getLast? with
           | some last => ⌊(last.offset + last.duration) / 1000⌋
           | none => 0))
    ∧ prepareTranscriptForAnalysis [⟨"Hello world", 0, 2000⟩] = ("[0:00] Hello world\n", 2) := by
  refine ⟨fun l => ⟨prepareFull_eq l, prepareTotal_eq l⟩, by with_unfolding_all decide⟩

theorem vttLoop_mem :
    ∀ (ls : List (List Char)) (seg : Segment), seg ∈ vttLoop ls →
      seg.duration = 0 ∧ ∃ k : ℕ, seg.offset = 1000 * (k : ℚ) := by
  intro ls
  induction ls with
  | nil =>
    intro seg h
    simp [vttLoop] at h
  | cons line rest ih =>
    intro seg h
    cases hs : searchTime (trimChars line) with
    | none =>
      simp only [vttLoop, hs] at h
      exact ih seg h
    | some r =>
      obtain ⟨hh, mm, ss⟩ := r
      simp only [vttLoop, hs] at h
      rcases List.mem_append.mp h with h1 | h2
      · by_cases hb : (buildText (rest.takeWhile (fun l => ¬(trimChars l).isEmpty))).isEmpty
        · rw [if_pos hb] at h1
          simp at h1
        · rw [if_neg hb] at h1
          rcases List.mem_singleton.mp h1 with rfl
          refine ⟨rfl, (hh * 3600 + mm * 60 + ss), ?_⟩
          show (((hh * 3600 + mm * 60 + ss) * 1000 : ℕ) : ℚ) = _
          push_cast
          ring
      · exact ih seg h2

/-- Claim C10: every segment emitted by the VTT parser has duration 0 and
an offset that is a whole-second multiple of 1000 milliseconds, and for
any non-empty VTT-parsed transcript the total duration of the formatter
times 1000 equals the offset of the last segment — the final cue contributes no
duration. -/
theorem parseVTT_invariant :
    ∀ s : String,
      (∀ seg ∈ parseVTT s, seg.duration = 0 ∧ ∃ k : ℕ, seg.offset = 1000 * (k : ℚ))
      ∧ (∀ seg, (parseVTT s).getLast? = some seg →
          ((prepareTranscriptForAnalysis (parseVTT s)).2 : ℚ) * 1000 = seg.offset) := by
  intro s
  constructor
  · intro seg hmem
    exact vttLoop_mem _ seg hmem
  · intro seg hlast
    have hmem : seg ∈ parseVTT s := List.mem_of_getLast?_eq_some hlast
    obtain ⟨hd, k, hoff⟩ := vttLoop_mem _ seg hmem
    have h2 : (prepareTranscriptForAnalysis (parseVTT s)).2
        = ⌊(seg.offset + seg.duration) / 1000⌋ := by
      rw [prepareTotal_eq, hlast]
    rw [h2, hd, hoff]
    have h3 : (1000 * (k : ℚ) + 0) / 1000 = (k : ℚ) := by ring
    rw [h3, Int.floor_natCast]
    push_cast
    ring

/-- Witness for claim C10 at the sample VTT document, whose single cue has
offset 1000 and duration 0. -/
theorem parseVTT_invariant_witness :
    (parseVTT sampleVtt).getLast? = some ⟨"Hi", 1000, 0⟩
    ∧ ((prepareTranscriptForAnalysis (parseVTT sampleVtt)).2 : ℚ) * 1000 = 1000
    ∧ (⟨"Hi", 1000, 0⟩ : Segment).duration = 0 := by
  refine ⟨by with_unfolding_all rfl, ?_, ?_⟩
  · have h := (parseVTT_invariant sampleVtt).2 ⟨"Hi", 1000, 0⟩ (by with_unfolding_all rfl)
    exact h
  · have h := ((parseVTT_invariant sampleVtt).1 ⟨"Hi", 1000, 0⟩ (by with_unfolding_all decide)).1
    exact h

theorem dedupAux_destutter :
    ∀ (rest : List Segment) (a : Segment) (acc : List Segment),
      dedupAux (a :: acc) rest
        = acc.reverse ++ List.destutter' (fun x y : Segment => x.text ≠ y.text) a rest := by
  intro rest
  induction rest with
  | nil =>
    intro a acc
    simp [dedupAux, List.destutter']
  | cons b t ih =>
    intro a acc
    by_cases hab : a.text ≠ b.text
    · rw [show dedupAux (a :: acc) (b :: t) = dedupAux (b :: a :: acc) t from by
        simp [dedupAux, hab]]
      rw [ih b (a :: acc), List.destutter'_cons, if_pos hab]
      simp [List.append_assoc]
    · rw [show dedupAux (a :: acc) (b :: t) = dedupAux (a :: acc) t from by
        simp [dedupAux, hab]]
      rw [ih a acc, List.destutter'_cons, if_neg hab]

theorem dedup_destutter (l : List Segment) :
    dedup l = l.destutter (fun x y : Segment => x.text ≠ y.text) := by
  cases l with
  | nil => rfl
  | cons a t =>
    show dedupAux [] (a :: t) = _
    rw [show dedupAux [] (a :: t) = dedupAux [a] t from by simp [dedupAux]]
    rw [dedupAux_destutter t a [], List.destutter_cons']
    simp

/-- Claim C8: the deduplication pass leaves no two adjacent segments with
equal text, returns a sublist of its input (so every retained segment
keeps its original offset and duration and the relative order), keeps the
first segment of each run of equal-text segments and drops the later
ones, leaves an already adjacent-distinct sequence unchanged, and is
idempotent. -/
theorem dedup_spec :
    (∀ l : List Segment, (dedup l).Chain' (fun a b => a.text ≠ b.text))
    ∧ (∀ l : List Segment, List.Sublist (dedup l) l)
    ∧ (∀ l : List Segment, l.Chain' (fun a b => a.text ≠ b.text) → dedup l = l)
    ∧ (∀ l : List Segment, dedup (dedup l) = dedup l)
    ∧ (∀ (a b : Segment) (t : List Segment), a.text = b.text →
        dedup (a :: b :: t) = dedup (a :: t))
    ∧ (∀ (a b : Segment) (t : List Segment), a.text ≠ b.text →
        dedup (a :: b :: t) = a :: dedup (b :: t)) := by
  refine ⟨?_, ?_, ?_, ?_, ?_, ?_⟩
  · intro l
    rw [dedup_destutter]
    exact List.destutter_is_chain' (fun x y : Segment => x.text ≠ y.text) l
  · intro l
    rw [dedup_destutter]
    exact List.destutter_sublist (fun x y : Segment => x.text ≠ y.text) l
  · intro l h
    rw [dedup_destutter]
    exact List.destutter_of_chain' (fun x y : Segment => x.text ≠ y.text) l h
  · intro l
    simp only [dedup_destutter]
    exact List.destutter_idem l (fun x y : Segment => x.text ≠ y.text)
  · intro a b t hab
    simp only [dedup_destutter, List.destutter_cons']
    rw [List.destutter'_cons, if_neg]
    simp [hab]
  · intro a b t hab
    simp only [dedup_destutter, List.destutter_cons']
    rw [List.destutter'_cons, if_pos hab]

/-- Witness for claim C8: an already distinct pair is unchanged, a
duplicated first text collapses onto the first occurrence, and a distinct
head is retained in front of the deduplicated tail. -/
theorem dedup_spec_witness :
    dedup [⟨"a", 0, 0⟩, ⟨"b", 9, 2⟩] = [⟨"a", 0, 0⟩, ⟨"b", 9, 2⟩]
    ∧ dedup [⟨"a", 0, 0⟩, ⟨"a", 5, 1⟩, ⟨"b", 9, 2⟩] = dedup [⟨"a", 0, 0⟩, ⟨"b", 9, 2⟩]
    ∧ dedup [⟨"b", 9, 2⟩, ⟨"c", 10, 0⟩] = ⟨"b", 9, 2⟩ :: dedup [⟨"c", 10, 0⟩] := by
  refine ⟨dedup_spec.2.2.1 _ ?_, dedup_spec.2.2.2.2.1 _ _ _ ?_, dedup_spec.2.2.2.2.2 _ _ _ ?_⟩
  · simp [List.chain'_cons]
  · with_unfolding_all decide
  · with_unfolding_all decide

/-- Claim C1: the fetcher tries the strategies in a fixed order and the
first non-empty transcript wins: when the metadata step succeeds and the
VTT strategy produces a non-empty transcript, the JSON3 strategy is never
invoked and the result is the VTT output after the dedup pass; and the
JSON3 strategy is invoked only when the VTT strategy produced an empty
transcript. -/
theorem getTranscript_short_circuit :
    ∀ env : FetchEnv,
      (env.infoOk = true → (vttAttempt env.vtt).1 ≠ [] →
        (runGetTranscript env).1 = Except.ok (dedup (vttAttempt env.vtt).1)
        ∧ (runGetTranscript env).2.json3Invoked = false)
      ∧ ((runGetTranscript env).2.json3Invoked = true → (vttAttempt env.vtt).1 = []) := by
  intro env
  constructor
  · intro hinfo hne
    have hb : (vttAttempt env.vtt).1.isEmpty = false := by
      simpa [List.isEmpty_iff] using hne
    simp [runGetTranscript, hinfo, hb]
  · intro hj
    cases hinfo : env.infoOk with
    | false =>
      simp [runGetTranscript, hinfo] at hj
    | true =>
      by_cases hv : (vttAttempt env.vtt).1.isEmpty
      · exact List.isEmpty_iff.mp hv
      · exfalso
        simp [runGetTranscript, hinfo, hv] at hj

/-- Witness for claim C1: with a successful VTT download of the sample
document, the fetcher returns its deduplicated parse and never invokes
the JSON3 strategy. -/
theorem getTranscript_short_circuit_witness :
    (runGetTranscript ⟨true, "", ⟨true, some sampleVtt, ""⟩, ⟨true, some "ignored", "m"⟩⟩).1
        = Except.ok (dedup (vttAttempt ⟨true, some sampleVtt, ""⟩).1)
    ∧ (runGetTranscript
        ⟨true, "", ⟨true, some sampleVtt, ""⟩, ⟨true, some "ignored", "m"⟩⟩).2.json3Invoked
        = false :=
  (getTranscript_short_circuit
    ⟨true, "", ⟨true, some sampleVtt, ""⟩, ⟨true, some "ignored", "m"⟩⟩).1
    rfl (by with_unfolding_all decide)

/-- Claim C2: when every strategy fails or produces an empty transcript,
the fetcher fails with the single user-facing no-captions message,
independently of the metadata outcome and of the per-strategy failure
messages, which only reach the log. -/
theorem getTranscript_all_fail :
    ∀ env : FetchEnv,
      (vttAttempt env.vtt).1 = [] → (json3Attempt env.json3).1 = [] →
      (runGetTranscript env).1 = Except.error "No captions available for this video" := by
  intro env hv hj
  cases hinfo : env.infoOk with
  | false => simp [runGetTranscript, hinfo]
  | true => simp [runGetTranscript, hinfo, hv, hj]

/-- Witness for claim C2: a throwing VTT download and a json3 download
whose file is unparsable both yield empty transcripts, and the fetcher
reports the single no-captions error. -/
theorem getTranscript_all_fail_witness :
    (vttAttempt ⟨false, none, "vtt boom"⟩).1 = []
    ∧ (json3Attempt ⟨true, some "oops", "json3 msg"⟩).1 = []
    ∧ (runGetTranscript ⟨true, "", ⟨false, none, "vtt boom"⟩, ⟨true, some "oops", "json3 msg"⟩⟩).1
        = Except.error "No captions available for this video" :=
  ⟨by with_unfolding_all rfl, by with_unfolding_all rfl,
    getTranscript_all_fail ⟨true, "", ⟨false, none, "vtt boom"⟩, ⟨true, some "oops", "json3 msg"⟩⟩
      (by with_unfolding_all rfl) (by with_unfolding_all rfl)⟩

/-- Claim C9 is a code bug: the claim (and the specification) require the
downloaded subtitle file to be removed on every failure path, but when the
json3 strategy downloads a file whose content is not valid JSON, the
`JSON.parse` inside `parseJSON3` throws before the `unlinkSync` call and
the inner catch only logs, so the temporary file remains on disk while the
request fails with the no-captions error.  This theorem evaluates the
fetcher at that failing input. -/
theorem getTranscript_leaks_tmpfile :
    (runGetTranscript ⟨true, "", ⟨true, none, ""⟩, ⟨true, some "oops", ""⟩⟩).1
        = Except.error "No captions available for this video"
    ∧ (runGetTranscript ⟨true, "", ⟨true, none, ""⟩, ⟨true, some "oops", ""⟩⟩).2.json3FileRemains
        = true :=
  ⟨by with_unfolding_all rfl, by with_unfolding_all rfl⟩

theorem vttLoop_no_time :
    ∀ ls : List (List Char), (∀ l ∈ ls, searchTime (trimChars l) = none) → vttLoop ls = [] := by
  intro ls
  induction ls with
  | nil =>
    intro _
    rfl
  | cons x t ih =>
    intro hall
    have hx := hall x (List.mem_cons_self x t)
    simp only [vttLoop, hx]
    exact ih (fun l hl => hall l (List.mem_cons_of_mem x hl))

/-- Claim C7 amended: the VTT parser returns an empty list without raising
whenever no line carries the timestamp pattern (it is total by
construction); the JSON event-stream parser returns an empty list for
well-formed JSON with no events, but on input that is not valid JSON it
raises (the embedded `JSON.parse` throws) — the caller catches that throw
and treats it like an empty result. -/
theorem parsers_tolerate :
    ∀ s : String,
      (Json.parse s = none → parseJSON3 s = Except.error jsonParseErrMsg)
      ∧ (∀ kvs, Json.parse s = some (Json.obj kvs) → listLookup kvs "events" = none →
          parseJSON3 s = Except.ok [])
      ∧ ((∀ l ∈ splitLines s.data, searchTime (trimChars l) = none) → parseVTT s = []) := by
  intro s
  refine ⟨?_, ?_, ?_⟩
  · intro h
    simp [parseJSON3, h]
  · intro kvs hparse hlook
    simp [parseJSON3, hparse, jsGetField, hlook, jsTruthy, json3Events]
  · intro h
    exact vttLoop_no_time _ h

/-- Counterexample to claim C7 as stated: on input that is not well-formed
JSON, the JSON event-stream parser raises (the `JSON.parse` on its first
line throws a SyntaxError) instead of returning an empty segment list. -/
theorem parseJSON3_raises : parseJSON3 "oops" = Except.error jsonParseErrMsg := by
  with_unfolding_all rfl

/-- Witness for claim C7: the three amended behaviours at concrete
inputs — a non-JSON input raises, an empty JSON object yields the empty
segment list, and prose with no timestamp lines parses to no VTT cues. -/
theorem parsers_tolerate_witness :
    parseJSON3 "nope" = Except.error jsonParseErrMsg
    ∧ parseJSON3 "\x7b\x7d" = Except.ok []
    ∧ parseVTT "hello world" = [] :=
  ⟨(parsers_tolerate "nope").1 (by with_unfolding_all rfl),
   (parsers_tolerate "\x7b\x7d").2.1 [] (by with_unfolding_all rfl) (by with_unfolding_all rfl),
   (parsers_tolerate "hello world").2.2 (by with_unfolding_all decide)⟩

/-- Counterexample to claim C6 as stated: on the reply that is just the
empty JSON object — a parsed reply lacking the topics array — the builder
raises a TypeError instead of defaulting the field to an empty container
and completing. -/
theorem analyze_missing_topics_raises :
    analyzeWithClaude "\x7b\x7d" = Except.error undefinedMapErrMsg := by
  with_unfolding_all rfl

/-- Claim C6 amended: the summary/topics builder raises a type error when
the parsed reply lacks the topics array, failing the request; the
extended-schema variant tolerates a missing chapters field without
raising but returns the parsed object unchanged — the missing field is
left absent, not defaulted to an empty container. -/
theorem postProcess_missing_fields :
    (∀ kvs, listLookup kvs "topics" = none →
      postProcessTopics (Json.obj kvs) = Except.error undefinedMapErrMsg)
    ∧ (∀ kvs, listLookup kvs "chapters" = none →
      postProcessChapters (Json.obj kvs) = Except.ok (Json.obj kvs)) := by
  constructor
  · intro kvs h
    simp [postProcessTopics, jsGetField, h]
  · intro kvs h
    simp [postProcessChapters, jsGetField, h]

/-- Witness for claim C6 at concrete parsed replies missing the relevant
array field. -/
theorem postProcess_missing_fields_witness :
    postProcessTopics (Json.obj [("summary", Json.str "s")]) = Except.error undefinedMapErrMsg
    ∧ postProcessChapters (Json.obj [("tldr", Json.str "s")])
        = Except.ok (Json.obj [("tldr", Json.str "s")]) :=
  ⟨postProcess_missing_fields.1 _ (by with_unfolding_all rfl),
   postProcess_missing_fields.2 _ (by with_unfolding_all rfl)⟩

theorem dropWhileAppendAll {p : Char → Bool} :
    ∀ (l1 l2 : List Char), (∀ c ∈ l1, p c = true) → (l1 ++ l2).dropWhile p = l2.dropWhile p := by
  intro l1
  induction l1 with
  | nil =>
    intro l2 _
    rfl
  | cons c t ih =>
    intro l2 hall
    have hc : p c = true := hall c (List.mem_cons_self c t)
    simp only [List.cons_append, List.dropWhile_cons_of_pos hc]
    exact ih l2 (fun x hx => hall x (List.mem_cons_of_mem c hx))

theorem extractJson_none (r : List Char) (h : '{' ∉ r) : extractJson r = none := by
  simp only [extractJson]
  have h1 : r.dropWhile (fun c => c ≠ '{') = [] := by
    rw [List.dropWhile_eq_nil_iff]
    intro x hx
    simp only [ne_eq, decide_not, Bool.not_eq_true', decide_eq_false_iff_not]
    intro he
    exact h (he ▸ hx)
  rw [h1]
  simp

theorem extractJson_sandwich (pre mid post : List Char)
    (hpre : '{' ∉ pre) (hpost : '}' ∉ post) :
    extractJson (pre ++ ('{' :: (mid ++ ['}'])) ++ post) = some ('{' :: (mid ++ ['}'])) := by
  simp only [extractJson]
  have hp1 : ∀ c ∈ pre, (fun c => decide (c ≠ '{')) c = true := by
    intro c hc
    simp only [ne_eq, decide_not, Bool.not_eq_true', decide_eq_false_iff_not]
    intro he
    exact hpre (he ▸ hc)
  have h1 : (pre ++ ('{' :: (mid ++ ['}'])) ++ post).dropWhile (fun c => c ≠ '{')
      = '{' :: (mid ++ ['}'] ++ post) := by
    rw [List.append_assoc, dropWhileAppendAll pre _ hp1]
    simp [List.dropWhile_cons, List.append_assoc]
  rw [h1]
  have hrev : ('{' :: (mid ++ ['}'] ++ post)).reverse
      = post.reverse ++ ('}' :: (mid.reverse ++ ['{'])) := by
    simp [List.reverse_cons, List.reverse_append, List.append_assoc]
  rw [hrev]
  have hp2 : ∀ c ∈ post.reverse, (fun c => decide (c ≠ '}')) c = true := by
    intro c hc
    simp only [ne_eq, decide_not, Bool.not_eq_true', decide_eq_false_iff_not]
    intro he
    exact hpost (he ▸ (List.mem_reverse.mp hc))
  rw [dropWhileAppendAll post.reverse _ hp2]
  simp [List.dropWhile_cons, List.append_assoc]

/-- Counterexample to claim C5 as stated: the reply below contains a valid
JSON object surrounded by prose, yet extraction and parsing do not return
that object — the greedy regex spans from the first open brace to the last
close brace (including the prose brace), the span is not valid JSON, and
the builder throws. -/
theorem analyze_greedy_counterexample :
    Json.parse "\x7b\"a\": 1\x7d" = some (Json.obj [("a", Json.num 1)])
    ∧ "note \x7b\"a\": 1\x7d tail\x7d" = "note " ++ "\x7b\"a\": 1\x7d" ++ " tail\x7d"
    ∧ extractJson "note \x7b\"a\": 1\x7d tail\x7d".data = some "\x7b\"a\": 1\x7d tail\x7d".data
    ∧ analyzeWithClaude "note \x7b\"a\": 1\x7d tail\x7d" = Except.error jsonParseErrMsg := by
  refine ⟨?_, ?_, ?_, ?_⟩ <;> with_unfolding_all rfl

/-- Claim C5 amended: the builder extracts the greedy span from the first
open brace to the last close brace of the reply, not the first balanced
object.  When the embedded JSON object is the only braced text — the
prose before it has no open brace and the prose after it no close brace —
extraction and parsing recover exactly that object; a reply with no open
brace fails with the fixed response-parse error.  The builder consumes the
single LLM reply it is given and never retries. -/
theorem analyze_extraction_spec :
    (∀ pre post : String, '{' ∉ pre.data → '}' ∉ post.data →
      analyzeWithClaude (pre ++ "\x7b\"summary\": \"ok\", \"topics\": []\x7d" ++ post)
        = Except.ok (Json.obj [("summary", Json.str "ok"), ("topics", Json.arr [])]))
    ∧ (∀ r : String, '{' ∉ r.data →
        analyzeWithClaude r = Except.error "Failed to parse AI response") := by
  constructor
  · intro pre post hpre hpost
    have hex := extractJson_sandwich pre.data ("\"summary\": \"ok\", \"topics\": []".data)
      post.data hpre hpost
    simp only [analyzeWithClaude, String.data_append, List.cons_append, List.nil_append]
      at hex ⊢
    rw [hex]
    with_unfolding_all rfl
  · intro r h
    simp only [analyzeWithClaude, extractJson_none r.data h]

/-- Witness for claim C5 at a concrete prose-wrapped reply and a concrete
brace-free reply. -/
theorem analyze_extraction_spec_witness :
    analyzeWithClaude ("Sure, here is the JSON: "
        ++ "\x7b\"summary\": \"ok\", \"topics\": []\x7d" ++ " hope that helps")
      = Except.ok (Json.obj [("summary", Json.str "ok"), ("topics", Json.arr [])])
    ∧ analyzeWithClaude "no json here" = Except.error "Failed to parse AI response" :=
  ⟨analyze_extraction_spec.1 "Sure, here is the JSON: " " hope that helps"
      (by with_unfolding_all decide) (by with_unfolding_all decide),
   analyze_extraction_spec.2 "no json here" (by with_unfolding_all decide)⟩
